import Mathlib

/-!
Shallow embedding of the eligible-point sampler of `meter-made-ui`
(`src/app/page.tsx` and its near-duplicate revisions), over exact
rational arithmetic in place of JS floating point.

The ambient `Math.random()` source is modelled as an explicit stream
`rs : Nat → ℚ`; the JS runtime guarantees every drawn value lies in
`[0, 1)`, which theorems state as an explicit hypothesis where needed.
-/

namespace MeterMade

/-- Structure `Point` from `page.tsx`: `{ x: longitude, y: latitude, result }`,
where `result` is a presentation-only random 0/1 label. -/
structure Point where
  x : ℚ
  y : ℚ
  result : ℤ
  deriving DecidableEq, Repr

/-- A GeoJSON feature as consumed by the sampler: an optional
`properties.name` together with the polygon rings (each ring an ordered
list of `[longitude, latitude]` positions).  MultiPolygon features
flatten to the same ring list; only the coordinates and the name are
ever read by the code under study. -/
structure Feature where
  name : Option String
  rings : List (List (ℚ × ℚ))
  deriving DecidableEq, Repr

/-- The envelope `{latMin, latMax, lngMin, lngMax}` that Leaflet's
`L.geoJSON(data).getBounds()` computes. -/
structure BBox where
  latMin : ℚ
  latMax : ℚ
  lngMin : ℚ
  lngMax : ℚ
  deriving DecidableEq, Repr

/-- All coordinate positions appearing in a feature list, in order. -/
def allCoords (mapData : List Feature) : List (ℚ × ℚ) :=
  ((mapData.map (fun f => f.rings.flatten)).flatten)

/-- Leaflet `L.geoJSON(mapData).getBounds()`: the running min/max of all
latitudes (second position components) and longitudes (first components).
When no coordinate exists at all the bounds object is invalid
(`_southWest` is `undefined`) and reading `.lat` from it throws; that
fault is modelled as `none`. -/
def getBounds (mapData : List Feature) : Option BBox :=
  match allCoords mapData with
  | [] => none
  | c :: cs =>
      some
        { latMin := cs.foldl (fun m q => min m q.2) c.2
          latMax := cs.foldl (fun m q => max m q.2) c.2
          lngMin := cs.foldl (fun m q => min m q.1) c.1
          lngMax := cs.foldl (fun m q => max m q.1) c.1 }

/-- Leaflet `LatLngBounds.contains([lat, lng])`: inclusive comparison
against all four envelope edges. -/
def bbContains (bb : BBox) (lat lng : ℚ) : Bool :=
  decide (bb.latMin ≤ lat) && decide (lat ≤ bb.latMax) &&
    decide (bb.lngMin ≤ lng) && decide (lng ≤ bb.lngMax)

/-- JS `Math.round(r)` for the random label: `floor(r + 1/2)`. -/
def jsRound (r : ℚ) : ℤ :=
  Int.floor (r + 1 / 2)

/-- JS `Math.floor(r * n)` used to pick a random index into a pool of
size `n`, clamped to `Nat` (the value is nonnegative whenever `0 ≤ r`). -/
def jsFloorIdx (r : ℚ) (n : Nat) : Nat :=
  (Int.floor (r * n)).toNat

/-- JS `pool.splice(i, 1)[0]`: when `i` is in range, remove and return
the element at `i`; when `i` is out of range `splice` removes nothing
and the indexing yields `undefined`, modelled as `none`. -/
def spliceOne (l : List Point) (i : Nat) : Option Point × List Point :=
  if h : i < l.length then (some (l.get ⟨i, h⟩), l.take i ++ l.drop (i + 1))
  else (none, l)

/-- The `while` loop of `samplePoints`: while fewer than `sampleSize`
points are sampled and the pool is nonempty, splice out the element at
index `Math.floor(Math.random() * pool.length)` and push it.  `fuel`
is the remaining capacity `sampleSize - acc.length`, which bounds the
iteration count; `k` indexes the random stream.  Returns the sampled
list (entries `none` model `undefined`, unreachable for a genuine
random source) together with the drained pool. -/
def sampleGo (rs : Nat → ℚ) (sampleSize : ℤ) :
    Nat → Nat → List Point → List (Option Point) →
      List (Option Point) × List Point
  | 0, _, pool, acc => (acc, pool)
  | fuel + 1, k, pool, acc =>
      if (acc.length : ℤ) < sampleSize ∧ pool ≠ [] then
        let d := spliceOne pool (jsFloorIdx (rs k) pool.length)
        sampleGo rs sampleSize fuel (k + 1) d.2 (acc ++ [d.1])
      else (acc, pool)

/-- Function `samplePoints(eligiblePoints, sampleSize)` from `page.tsx` lines
70-77 (the revision at `part_008` lines 69-79 adds a redundant
empty-pool guard with identical behaviour).  Returns the sampled
sequence and the final state of the (mutated, drained) input pool. -/
def samplePoints (rs : Nat → ℚ) (eligiblePoints : List Point)
    (sampleSize : ℤ) : List (Option Point) × List Point :=
  sampleGo rs sampleSize sampleSize.toNat 0 eligiblePoints []

/-- Constant `SAMPLE_SIZE` from the source; the spec calls it `targetCount`.
The generator embeddings below are parameterised by it. -/
def SAMPLE_SIZE : Nat := 50

/-- The proposal loop of `gatherEligiblePoints` at `part_008` lines
55-64: up to `iters` iterations (called with `targetCount * 10`), each
drawing `lat` and `lng` uniformly inside the envelope, testing
`bounds.contains([lat, lng])`, and on success pushing
`{x: lng, y: lat, result: Math.round(Math.random())}`; it breaks as
soon as `cap` (called with `targetCount * 2`) points are collected.
`k` indexes the random stream; the second component counts the loop
iterations actually executed. -/
def gatherGo (rs : Nat → ℚ) (cap : Nat) (bb : BBox) :
    Nat → Nat → List Point → List Point × Nat
  | 0, _, acc => (acc, 0)
  | iters + 1, k, acc =>
      let lat := bb.latMin + rs k * (bb.latMax - bb.latMin)
      let lng := bb.lngMin + rs (k + 1) * (bb.lngMax - bb.lngMin)
      if bbContains bb lat lng then
        let acc2 := acc ++ [⟨lng, lat, jsRound (rs (k + 2))⟩]
        if cap ≤ acc2.length then (acc2, 1)
        else
          let r := gatherGo rs cap bb iters (k + 3) acc2
          (r.1, r.2 + 1)
      else
        let r := gatherGo rs cap bb iters (k + 2) acc
        (r.1, r.2 + 1)

/-- Function `gatherEligiblePoints` from `part_008` lines 38-67.  The source's
`if (!dcBoundary) return []` guard tests the `mapData` array itself,
which is always truthy in JS, so it never fires; with no coordinate at
all `getBounds` yields an invalid bounds object and reading
`.getSouthWest().lat` throws, modelled as `none`. -/
def gatherEligiblePoints (rs : Nat → ℚ) (targetCount : Nat)
    (mapData : List Feature) : Option (List Point) :=
  match getBounds mapData with
  | none => none
  | some bb => some (gatherGo rs (targetCount * 2) bb (targetCount * 10) 0 []).1

/-- The proposal loop of the `part_007` revision (lines 64-88): the
same loop but with no early break, so all `iters` iterations run. -/
def gatherGoNB (rs : Nat → ℚ) (bb : BBox) :
    Nat → Nat → List Point → List Point × Nat
  | 0, _, acc => (acc, 0)
  | iters + 1, k, acc =>
      let lat := bb.latMin + rs k * (bb.latMax - bb.latMin)
      let lng := bb.lngMin + rs (k + 1) * (bb.lngMax - bb.lngMin)
      if bbContains bb lat lng then
        let r := gatherGoNB rs bb iters (k + 3)
          (acc ++ [⟨lng, lat, jsRound (rs (k + 2))⟩])
        (r.1, r.2 + 1)
      else
        let r := gatherGoNB rs bb iters (k + 2) acc
        (r.1, r.2 + 1)

/-- Function `gatherEligiblePoints` from `part_007` lines 39-92: guarded by
`mapData.length === 0`, then the unbroken proposal loop (the commented
reprojection is dead code there, so `x = lng`, `y = lat`). -/
def gatherEligiblePointsNB (rs : Nat → ℚ) (targetCount : Nat)
    (mapData : List Feature) : Option (List Point) :=
  if mapData.length = 0 then some []
  else
    match getBounds mapData with
    | none => none
    | some bb => some (gatherGoNB rs bb (targetCount * 10) 0 []).1

/-- Name of the boundary feature that `page.tsx` looks up. -/
def dcLongName : String := "District of Columbia"

/-- Short state code compared against `component.short_name`. -/
def dcShortName : String := "DC"

/-- Error message set for a non-DC address. -/
def dcErrorMsg : String := "Please select an address in the District of Columbia."

/-- One row of the grid loop of `page.tsx` lines 58-64: for a fixed
`lat`, walk the longitude steps, pushing a point whenever
`bounds.contains([lat, lng])` holds.  Carries the random-stream index
`k` (one draw per pushed point, for `result`). -/
def gridRow (rs : Nat → ℚ) (bb : BBox) (lat : ℚ) :
    List ℚ → Nat → List Point → List Point × Nat
  | [], k, acc => (acc, k)
  | lng :: rest, k, acc =>
      if bbContains bb lat lng then
        gridRow rs bb lat rest (k + 1) (acc ++ [⟨lng, lat, jsRound (rs k)⟩])
      else gridRow rs bb lat rest k acc

/-- The outer latitude loop of the grid version. -/
def gridAll (rs : Nat → ℚ) (bb : BBox) (lngs : List ℚ) :
    List ℚ → Nat → List Point → List Point × Nat
  | [], k, acc => (acc, k)
  | lat :: rest, k, acc =>
      let r := gridRow rs bb lat lngs k acc
      gridAll rs bb lngs rest r.2 r.1

/-- Number of iterations of `for (v = lo; v <= hi; v += 0.01)`. -/
def gridCount (lo hi : ℚ) : Nat :=
  if lo ≤ hi then (Int.floor ((hi - lo) * 100)).toNat + 1 else 0

/-- The values visited by `for (v = lo; v <= hi; v += 0.01)` (exact
rational steps in place of accumulated floating-point increments). -/
def gridSeq (lo hi : ℚ) : List ℚ :=
  (List.range (gridCount lo hi)).map (fun i => lo + i / 100)

/-- Function `gatherEligiblePoints` from `page.tsx` lines 38-68: select the
feature whose `properties.name` is `District of Columbia` (returning
`[]` when absent), compute its envelope, then walk a 0.01-degree grid
over it, pushing every grid point that the (inclusive) envelope check
admits.  A selected feature with no coordinate faults (`none`), as in
the other revisions. -/
def gatherEligiblePointsGrid (rs : Nat → ℚ)
    (mapData : List Feature) : Option (List Point) :=
  match mapData.find? (fun f => f.name == some dcLongName) with
  | none => some []
  | some dc =>
      match getBounds [dc] with
      | none => none
      | some bb =>
          some (gridAll rs bb (gridSeq bb.lngMin bb.lngMax)
            (gridSeq bb.latMin bb.latMax) 0 []).1

/-- Modelled from the spec: one step of the standard ray-casting test
(spec 4.1, "standard point-in-polygon semantics (ray casting or
equivalent)"), which no revision of the source implements — the code
tests only envelope membership.  True when the horizontal ray from `p`
towards increasing longitude crosses the edge `a`-`b`. -/
def edgeCrosses (p a b : ℚ × ℚ) : Bool :=
  (decide (p.2 < a.2) != decide (p.2 < b.2)) &&
    decide (p.1 < (b.1 - a.1) * (p.2 - a.2) / (b.2 - a.2) + a.1)

/-- Modelled from the spec: ray crossings of one (closed) ring. -/
def ringCrossings (p : ℚ × ℚ) : List (ℚ × ℚ) → Nat
  | a :: b :: rest => (if edgeCrosses p a b then 1 else 0) + ringCrossings p (b :: rest)
  | _ => 0

/-- Modelled from the spec: `contains(boundary, point)` of spec 4.1,
point-in-polygon by even-odd ray casting over the boundary's rings.
Positions are `(lng, lat)` pairs as in the GeoJSON data. -/
def containsSpec (mapData : List Feature) (lat lng : ℚ) : Bool :=
  mapData.any (fun f =>
    (f.rings.map (fun r => ringCrossings (lng, lat) r)).sum % 2 = 1)

/-- One entry of `place.address_components`. -/
structure AddressComponent where
  short_name : String
  long_name : String
  deriving DecidableEq, Repr

/-- Model of `place.geometry.location`, exposing `lat()` and `lng()`. -/
structure PlaceLocation where
  lat : ℚ
  lng : ℚ
  deriving DecidableEq, Repr

/-- The fields of the autocomplete `PlaceResult` that the handler
reads; `none` models an absent `geometry.location` or an absent
`address_components` array. -/
structure PlaceResult where
  location : Option PlaceLocation
  address_components : Option (List AddressComponent)
  deriving DecidableEq, Repr

/-- The `InputState` posted verbatim (`JSON.stringify(input)`) to the
prediction service by `makePrediction`. -/
structure InputState where
  d : String
  h : ℤ
  x : ℚ
  y : ℚ
  deriving DecidableEq, Repr

/-- The DC membership test of `handlePlaceChanged`; an absent
`address_components` array makes `isDC` undefined, which the `if`
treats as false. -/
def isDC (comps : Option (List AddressComponent)) : Bool :=
  match comps with
  | none => false
  | some l =>
      l.any (fun c =>
        c.short_name == dcShortName || c.long_name == dcLongName)

/-- Function `handlePlaceChanged` from `page.tsx` lines 231-252: given the
previous input state and error, and the selected place, either leave
both unchanged (no geometry), set the DC error (non-DC address), or
clear the error and store `x := location.lat()`, `y := location.lng()`
into the input later posted by `makePrediction`. -/
def handlePlaceChanged (prev : InputState) (prevError : Option String)
    (place : Option PlaceResult) : InputState × Option String :=
  match place with
  | none => (prev, prevError)
  | some p =>
      match p.location with
      | none => (prev, prevError)
      | some loc =>
          if isDC p.address_components then
            ({ prev with x := loc.lat, y := loc.lng }, none)
          else
            (prev, some dcErrorMsg)

/-- Constant-zero random stream used by concrete witnesses. -/
def rs0 : Nat → ℚ := fun _ => 0

/-- Concrete three-point pool used by concrete witnesses. -/
def pool3 : List Point := [⟨1, 1, 0⟩, ⟨2, 2, 0⟩, ⟨3, 3, 1⟩]

/-- Number of proposal-loop iterations executed by the `part_008`
revision of the generator (0 when the envelope computation faults). -/
def gatherAttempts (rs : Nat → ℚ) (targetCount : Nat)
    (mapData : List Feature) : Nat :=
  match getBounds mapData with
  | none => 0
  | some bb => (gatherGo rs (targetCount * 2) bb (targetCount * 10) 0 []).2

/-- Number of proposal-loop iterations executed by the `part_007`
revision of the generator. -/
def gatherAttemptsNB (rs : Nat → ℚ) (targetCount : Nat)
    (mapData : List Feature) : Nat :=
  if mapData.length = 0 then 0
  else
    match getBounds mapData with
    | none => 0
    | some bb => (gatherGoNB rs bb (targetCount * 10) 0 []).2

/-- Unit-square boundary feature used by concrete counterexamples. -/
def sqFeature : Feature := ⟨none, [[(0, 0), (1, 0), (1, 1), (0, 1), (0, 0)]]⟩

/-- Right-triangle boundary (vertices (0,0), (10,0), (0,10)) whose
envelope strictly exceeds it. -/
def triFeature : Feature := ⟨none, [[(0, 0), (10, 0), (0, 10), (0, 0)]]⟩

/-- Boundary with a single coordinate: a degenerate zero-area envelope. -/
def degFeature : Feature := ⟨none, [[(5, 7)]]⟩

/-- Boundary feature whose coordinate list is empty. -/
def noCoordFeature : Feature := ⟨none, [[]]⟩

/-- Random stream whose first proposal lands at latitude 9/longitude 9,
inside the triangle's envelope but outside the triangle. -/
def rsC1 : Nat → ℚ := fun k => if k = 0 then 9 / 10 else if k = 1 then 9 / 10 else 0

/-- Date string fixture for the handler evaluation. -/
def isoDateFixture : String := "2024-01-01"

lemma spliceOne_reduceOption_perm (l : List Point) (i : Nat) :
    ([(spliceOne l i).1].reduceOption ++ (spliceOne l i).2).Perm l := by
  unfold spliceOne
  by_cases h : i < l.length
  · simp only [dif_pos h, List.reduceOption_cons_of_some, List.reduceOption_nil,
      List.singleton_append]
    have hl : l.take i ++ l.get ⟨i, h⟩ :: l.drop (i + 1) = l := by
      conv_rhs => rw [← List.take_append_drop i l]
      rw [List.drop_eq_getElem_cons h]
      simp
    refine List.Perm.trans ?_ (by rw [hl] : (l.take i ++ l.get ⟨i, h⟩ :: l.drop (i + 1)).Perm l)
    exact List.perm_middle.symm
  · rw [dif_neg h]
    simp

lemma sampleGo_perm (rs : Nat → ℚ) (n : ℤ) :
    ∀ (fuel k : Nat) (pool : List Point) (acc : List (Option Point)),
      ((sampleGo rs n fuel k pool acc).1.reduceOption ++
        (sampleGo rs n fuel k pool acc).2).Perm (acc.reduceOption ++ pool)
  | 0, _, pool, acc => by simp [sampleGo]
  | fuel + 1, k, pool, acc => by
      rw [sampleGo]
      by_cases hg : (acc.length : ℤ) < n ∧ pool ≠ []
      · simp only [if_pos hg]
        have ih := sampleGo_perm rs n fuel (k + 1)
          (spliceOne pool (jsFloorIdx (rs k) pool.length)).2
          (acc ++ [(spliceOne pool (jsFloorIdx (rs k) pool.length)).1])
        refine ih.trans ?_
        rw [List.reduceOption_append, List.append_assoc]
        exact (spliceOne_reduceOption_perm pool _).append_left acc.reduceOption
      · simp [if_neg hg]

lemma jsFloorIdx_lt {r : ℚ} {n : Nat} (h0 : 0 ≤ r) (h1 : r < 1) (hn : 0 < n) :
    jsFloorIdx r n < n := by
  unfold jsFloorIdx
  have hpos : (0 : ℚ) < n := by exact_mod_cast hn
  have hlt : Int.floor (r * n) < (n : ℤ) := by
    rw [Int.floor_lt]
    push_cast
    exact mul_lt_of_lt_one_left hpos h1
  have hge : (0 : ℤ) ≤ Int.floor (r * n) :=
    Int.floor_nonneg.mpr (mul_nonneg h0 hpos.le)
  omega

lemma sampleGo_length (rs : Nat → ℚ) (hrs : ∀ k, 0 ≤ rs k ∧ rs k < 1) (m : Nat) :
    ∀ (fuel k : Nat) (pool : List Point) (acc : List (Option Point)),
      fuel + acc.length = m →
      (sampleGo rs (m : ℤ) fuel k pool acc).1.length =
        acc.length + min fuel pool.length
  | 0, _, pool, acc, _ => by simp [sampleGo]
  | fuel + 1, k, pool, acc, hm => by
      rw [sampleGo]
      rcases pool with _ | ⟨q, qs⟩
      · have hg : ¬ (((acc.length : ℤ) < (m : ℤ)) ∧ ([] : List Point) ≠ []) := by
          simp
        rw [if_neg hg]
        simp
      · have hlen : acc.length < m := by omega
        have hg : ((acc.length : ℤ) < (m : ℤ)) ∧ (q :: qs) ≠ [] := by
          constructor
          · exact_mod_cast hlen
          · simp
        rw [if_pos hg]
        have hidx : jsFloorIdx (rs k) (q :: qs).length < (q :: qs).length :=
          jsFloorIdx_lt (hrs k).1 (hrs k).2 (by simp)
        have hsp : (spliceOne (q :: qs) (jsFloorIdx (rs k) (q :: qs).length)).2.length =
            (q :: qs).length - 1 := by
          unfold spliceOne
          rw [dif_pos hidx]
          simp only [List.length_cons, List.length_append, List.length_take,
            List.length_drop] at hidx ⊢
          omega
        have ih := sampleGo_length rs hrs m fuel (k + 1)
          (spliceOne (q :: qs) (jsFloorIdx (rs k) (q :: qs).length)).2
          (acc ++ [(spliceOne (q :: qs) (jsFloorIdx (rs k) (q :: qs).length)).1])
          (by simp; omega)
        rw [ih, hsp]
        simp
        omega

/-- C9: the sampler drains its pool — the selected points together with
the remaining pool are a permutation of the original pool, so nothing
is synthesized or lost and sizes add up. -/
theorem c9_sampler_drains_pool (rs : Nat → ℚ) (pool : List Point) (n : ℤ) :
    ((samplePoints rs pool n).1.reduceOption ++
        (samplePoints rs pool n).2).Perm pool ∧
      pool.length = (samplePoints rs pool n).1.reduceOption.length +
        (samplePoints rs pool n).2.length := by
  have h := sampleGo_perm rs n n.toNat 0 pool []
  simp only [List.reduceOption_nil, List.nil_append] at h
  refine ⟨h, ?_⟩
  have := h.length_eq
  simpa using this.symm

/-- C4: sampling is without replacement — no retained input point
occurs in the output more often than in the input pool. -/
theorem c4_no_replacement (rs : Nat → ℚ) (pool : List Point) (n : ℤ)
    (p : Point) :
    (samplePoints rs pool n).1.reduceOption.count p ≤ pool.count p := by
  have h := sampleGo_perm rs n n.toNat 0 pool []
  simp only [List.reduceOption_nil, List.nil_append] at h
  calc (samplePoints rs pool n).1.reduceOption.count p
      ≤ (samplePoints rs pool n).1.reduceOption.count p +
        (samplePoints rs pool n).2.count p := Nat.le_add_right _ _
    _ = ((samplePoints rs pool n).1.reduceOption ++
        (samplePoints rs pool n).2).count p := (List.count_append ..).symm
    _ = pool.count p := h.count_eq p

/-- C8: the sampler is total and best-effort — on the empty pool it
returns the empty sequence (for every sample size), and in general it
never produces more points than the pool holds. -/
theorem c8_sampler_total_best_effort (rs : Nat → ℚ) (pool : List Point)
    (n : ℤ) :
    samplePoints rs [] n = ([], []) ∧
      (samplePoints rs pool n).1.reduceOption.length ≤ pool.length := by
  constructor
  · unfold samplePoints
    cases h : n.toNat with
    | zero => simp [sampleGo]
    | succ f => simp [sampleGo]
  · have h := sampleGo_perm rs n n.toNat 0 pool []
    simp only [List.reduceOption_nil, List.nil_append] at h
    have h2 : ((samplePoints rs pool n).1.reduceOption ++
        (samplePoints rs pool n).2).Perm pool := h
    have := h2.length_eq
    simp only [List.length_append] at this
    omega

/-- C10: a nonpositive sample size yields the empty output and leaves
the pool untouched. -/
theorem c10_nonpositive_sample_size (rs : Nat → ℚ) (pool : List Point)
    (n : ℤ) (hn : n ≤ 0) :
    samplePoints rs pool n = ([], pool) := by
  unfold samplePoints
  rw [Int.toNat_of_nonpos hn]
  rfl

/-- C3: for a genuine random source the sampled sequence has length
exactly `min sampleSize pool.length`. -/
theorem c3_sample_length_min (rs : Nat → ℚ)
    (hrs : ∀ k, 0 ≤ rs k ∧ rs k < 1) (pool : List Point) (m : Nat) :
    (samplePoints rs pool (m : ℤ)).1.length = min m pool.length := by
  unfold samplePoints
  rw [Int.toNat_natCast]
  have := sampleGo_length rs hrs m m 0 pool [] (by simp)
  simpa using this

/-- Witness for C3: a pool of exactly 3 points sampled with size 10
keeps all 3. -/
theorem c3_witness :
    (∀ k, 0 ≤ rs0 k ∧ rs0 k < 1) ∧
      (samplePoints rs0 pool3 ((10 : ℕ) : ℤ)).1.length = min 10 pool3.length :=
  ⟨fun _ => ⟨by norm_num [rs0], by norm_num [rs0]⟩,
    c3_sample_length_min rs0 (fun _ => ⟨by norm_num [rs0], by norm_num [rs0]⟩)
      pool3 10⟩

/-- Witness for C10 at sample size `-3`. -/
theorem c10_witness :
    (-3 : ℤ) ≤ 0 ∧ samplePoints rs0 pool3 (-3) = ([], pool3) :=
  ⟨by norm_num, c10_nonpositive_sample_size rs0 pool3 (-3) (by norm_num)⟩

lemma gatherGo_iters_le (rs : Nat → ℚ) (cap : Nat) (bb : BBox) :
    ∀ (iters k : Nat) (acc : List Point),
      (gatherGo rs cap bb iters k acc).2 ≤ iters
  | 0, _, _ => by simp [gatherGo]
  | iters + 1, k, acc => by
      simp only [gatherGo]
      split
      · split
        · simp
        · exact Nat.succ_le_succ (gatherGo_iters_le rs cap bb iters (k + 3) _)
      · exact Nat.succ_le_succ (gatherGo_iters_le rs cap bb iters (k + 2) acc)

lemma gatherGoNB_iters_le (rs : Nat → ℚ) (bb : BBox) :
    ∀ (iters k : Nat) (acc : List Point),
      (gatherGoNB rs bb iters k acc).2 ≤ iters
  | 0, _, _ => by simp [gatherGoNB]
  | iters + 1, k, acc => by
      simp only [gatherGoNB]
      split
      · exact Nat.succ_le_succ (gatherGoNB_iters_le rs bb iters (k + 3) _)
      · exact Nat.succ_le_succ (gatherGoNB_iters_le rs bb iters (k + 2) acc)

/-- C6: in every revision the generation loop executes at most
`targetCount * 10` proposal iterations, for every boundary (degenerate
ones included), so it can never run forever. -/
theorem c6_attempts_bounded (rs : Nat → ℚ) (targetCount : Nat)
    (mapData : List Feature) :
    gatherAttempts rs targetCount mapData ≤ targetCount * 10 ∧
      gatherAttemptsNB rs targetCount mapData ≤ targetCount * 10 := by
  constructor
  · unfold gatherAttempts
    cases h : getBounds mapData with
    | none => simp
    | some bb =>
        exact gatherGo_iters_le rs (targetCount * 2) bb (targetCount * 10) 0 []
  · unfold gatherAttemptsNB
    split
    · exact Nat.zero_le _
    · cases h : getBounds mapData with
      | none => simp
      | some bb => exact gatherGoNB_iters_le rs bb (targetCount * 10) 0 []

lemma gatherGo_length_le (rs : Nat → ℚ) (cap : Nat) (bb : BBox) :
    ∀ (iters k : Nat) (acc : List Point), acc.length < cap →
      (gatherGo rs cap bb iters k acc).1.length ≤ cap
  | 0, _, acc, h => by
      simp only [gatherGo]
      omega
  | iters + 1, k, acc, h => by
      simp only [gatherGo]
      split
      · split
        · next hcap =>
            simp only []
            simp only [List.length_append, List.length_cons,
              List.length_nil] at hcap ⊢
            omega
        · next hcap =>
            have hlt : (acc ++ [(⟨bb.lngMin + rs (k + 1) * (bb.lngMax - bb.lngMin),
                bb.latMin + rs k * (bb.latMax - bb.latMin),
                jsRound (rs (k + 2))⟩ : Point)]).length < cap := by
              omega
            exact gatherGo_length_le rs cap bb iters (k + 3) _ hlt
      · exact gatherGo_length_le rs cap bb iters (k + 2) acc h

lemma gatherGoNB_length_le (rs : Nat → ℚ) (bb : BBox) :
    ∀ (iters k : Nat) (acc : List Point),
      (gatherGoNB rs bb iters k acc).1.length ≤ acc.length + iters
  | 0, _, acc => by simp [gatherGoNB]
  | iters + 1, k, acc => by
      simp only [gatherGoNB]
      split
      · have := gatherGoNB_length_le rs bb iters (k + 3)
          (acc ++ [(⟨bb.lngMin + rs (k + 1) * (bb.lngMax - bb.lngMin),
            bb.latMin + rs k * (bb.latMax - bb.latMin),
            jsRound (rs (k + 2))⟩ : Point)])
        simp only [List.length_append, List.length_cons, List.length_nil] at this
        simp only []
        omega
      · have := gatherGoNB_length_le rs bb iters (k + 2) acc
        simp only []
        omega

/-- C7 counterexample: the `part_007` revision never stops early; with
`targetCount = 1` on the unit square and a constant-zero stream it
emits 10 points, more than `2 * targetCount = 2`. -/
theorem c7_counterexample :
    ¬ ((gatherEligiblePointsNB rs0 1 [sqFeature]).getD []).length ≤ 2 * 1 := by
  with_unfolding_all decide

/-- C7 (amended): the `part_008` revision stops at `targetCount * 2`
collected points, so its output has at most `2 * targetCount` points;
the `part_007` revision runs all `targetCount * 10` attempts with no
early stop, and only that many points bound its output. -/
theorem c7_output_bounds (rs : Nat → ℚ) (targetCount : Nat)
    (mapData : List Feature) :
    ((gatherEligiblePoints rs targetCount mapData).getD []).length ≤
        2 * targetCount ∧
      ((gatherEligiblePointsNB rs targetCount mapData).getD []).length ≤
        targetCount * 10 := by
  constructor
  · unfold gatherEligiblePoints
    cases h : getBounds mapData with
    | none => simp
    | some bb =>
        simp only [Option.getD_some]
        cases targetCount with
        | zero => simp [gatherGo]
        | succ t =>
            have := gatherGo_length_le rs ((t + 1) * 2) bb ((t + 1) * 10) 0 []
              (by simp)
            omega
  · unfold gatherEligiblePointsNB
    split
    · simp
    · cases h : getBounds mapData with
      | none => simp
      | some bb =>
          simp only [Option.getD_some]
          have := gatherGoNB_length_le rs bb (targetCount * 10) 0 []
          simpa using this

/-- C5 counterexample: a degenerate zero-area envelope does not give
the empty sequence (points on the envelope are emitted), and a feature
whose coordinate list is empty makes the envelope computation fault
instead of returning the empty sequence. -/
theorem c5_counterexample :
    gatherEligiblePoints rs0 1 [degFeature] ≠ some [] ∧
      gatherEligiblePoints rs0 1 [noCoordFeature] = none := by
  with_unfolding_all decide

/-- C5 (amended): the revisions that guard for a missing boundary
return the empty sequence when no feature is present, for every
targetCount. -/
theorem c5_empty_boundary_empty (rs : Nat → ℚ) (targetCount : Nat) :
    gatherEligiblePointsNB rs targetCount [] = some [] ∧
      gatherEligiblePointsGrid rs [] = some [] := by
  constructor
  · simp [gatherEligiblePointsNB]
  · simp [gatherEligiblePointsGrid, List.find?]

lemma gatherGo_mem_bb (rs : Nat → ℚ) (cap : Nat) (bb : BBox) :
    ∀ (iters k : Nat) (acc : List Point),
      (∀ p ∈ acc, bbContains bb p.y p.x = true) →
      ∀ p ∈ (gatherGo rs cap bb iters k acc).1, bbContains bb p.y p.x = true
  | 0, _, acc, hacc => by
      simpa [gatherGo] using hacc
  | iters + 1, k, acc, hacc => by
      simp only [gatherGo]
      split
      · next hc =>
          have hacc2 : ∀ p ∈ acc ++ [(⟨bb.lngMin + rs (k + 1) * (bb.lngMax - bb.lngMin),
              bb.latMin + rs k * (bb.latMax - bb.latMin),
              jsRound (rs (k + 2))⟩ : Point)], bbContains bb p.y p.x = true := by
            intro p hp
            rcases List.mem_append.mp hp with hp | hp
            · exact hacc p hp
            · rcases List.mem_singleton.mp hp with rfl
              simpa using hc
          split
          · exact hacc2
          · exact gatherGo_mem_bb rs cap bb iters (k + 3) _ hacc2
      · exact gatherGo_mem_bb rs cap bb iters (k + 2) acc hacc

lemma gatherGoNB_mem_bb (rs : Nat → ℚ) (bb : BBox) :
    ∀ (iters k : Nat) (acc : List Point),
      (∀ p ∈ acc, bbContains bb p.y p.x = true) →
      ∀ p ∈ (gatherGoNB rs bb iters k acc).1, bbContains bb p.y p.x = true
  | 0, _, acc, hacc => by
      simpa [gatherGoNB] using hacc
  | iters + 1, k, acc, hacc => by
      simp only [gatherGoNB]
      split
      · next hc =>
          refine gatherGoNB_mem_bb rs bb iters (k + 3) _ ?_
          intro p hp
          rcases List.mem_append.mp hp with hp | hp
          · exact hacc p hp
          · rcases List.mem_singleton.mp hp with rfl
            simpa using hc
      · exact gatherGoNB_mem_bb rs bb iters (k + 2) acc hacc

lemma samplePoints_mem (rs : Nat → ℚ) (pool : List Point) (n : ℤ) (p : Point)
    (hp : p ∈ (samplePoints rs pool n).1.reduceOption) : p ∈ pool := by
  have h := sampleGo_perm rs n n.toNat 0 pool []
  simp only [List.reduceOption_nil, List.nil_append] at h
  exact h.mem_iff.mp (List.mem_append_left _ hp)

lemma gridRow_mem_bb (rs : Nat → ℚ) (bb : BBox) (lat : ℚ) :
    ∀ (lngs : List ℚ) (k : Nat) (acc : List Point),
      (∀ p ∈ acc, bbContains bb p.y p.x = true) →
      ∀ p ∈ (gridRow rs bb lat lngs k acc).1, bbContains bb p.y p.x = true
  | [], _, acc, hacc => by simpa [gridRow] using hacc
  | lng :: rest, k, acc, hacc => by
      simp only [gridRow]
      split
      · next hc =>
          refine gridRow_mem_bb rs bb lat rest (k + 1) _ ?_
          intro p hp
          rcases List.mem_append.mp hp with hp | hp
          · exact hacc p hp
          · rcases List.mem_singleton.mp hp with rfl
            simpa using hc
      · exact gridRow_mem_bb rs bb lat rest k acc hacc

lemma gridAll_mem_bb (rs : Nat → ℚ) (bb : BBox) (lngs : List ℚ) :
    ∀ (lats : List ℚ) (k : Nat) (acc : List Point),
      (∀ p ∈ acc, bbContains bb p.y p.x = true) →
      ∀ p ∈ (gridAll rs bb lngs lats k acc).1, bbContains bb p.y p.x = true
  | [], _, acc, hacc => by simpa [gridAll] using hacc
  | lat :: rest, k, acc, hacc => by
      simp only [gridAll]
      exact gridAll_mem_bb rs bb lngs rest _ _
        (gridRow_mem_bb rs bb lat lngs k acc hacc)

/-- C1 (amended): in every revision, each emitted point — and hence
each point of the sampled output — lies within the boundary's
bounding-box envelope (inclusive); the code checks only envelope
membership, not point-in-polygon containment. -/
theorem c1_points_within_envelope (rs rs2 : Nat → ℚ) (targetCount : Nat)
    (mapData : List Feature) (bb : BBox) (n : ℤ)
    (hbb : getBounds mapData = some bb) :
    (∀ p ∈ (gatherEligiblePoints rs targetCount mapData).getD [],
        bbContains bb p.y p.x = true) ∧
      (∀ p ∈ (samplePoints rs2
          ((gatherEligiblePoints rs targetCount mapData).getD [])
          n).1.reduceOption,
        bbContains bb p.y p.x = true) ∧
      (∀ p ∈ (gatherEligiblePointsNB rs targetCount mapData).getD [],
        bbContains bb p.y p.x = true) ∧
      (∀ dc, mapData.find? (fun f => f.name == some dcLongName) = some dc →
        ∀ bbg, getBounds [dc] = some bbg →
        ∀ p ∈ (gatherEligiblePointsGrid rs mapData).getD [],
          bbContains bbg p.y p.x = true) := by
  have h1 : ∀ p ∈ (gatherEligiblePoints rs targetCount mapData).getD [],
      bbContains bb p.y p.x = true := by
    unfold gatherEligiblePoints
    rw [hbb]
    simp only [Option.getD_some]
    exact gatherGo_mem_bb rs (targetCount * 2) bb (targetCount * 10) 0 []
      (by simp)
  refine ⟨h1, ?_, ?_, ?_⟩
  · intro p hp
    exact h1 p (samplePoints_mem rs2 _ n p hp)
  · unfold gatherEligiblePointsNB
    split
    · simp
    · rw [hbb]
      simp only [Option.getD_some]
      exact gatherGoNB_mem_bb rs bb (targetCount * 10) 0 [] (by simp)
  · intro dc hdc bbg hbbg
    unfold gatherEligiblePointsGrid
    rw [hdc]
    dsimp only
    rw [hbbg]
    simp only [Option.getD_some]
    exact gridAll_mem_bb rs bbg (gridSeq bbg.lngMin bbg.lngMax)
      (gridSeq bbg.latMin bbg.latMax) 0 [] (by simp)

/-- C1 counterexample: on the triangle boundary the generator emits the
point (lng 9, lat 9), which lies in the envelope but not in the
polygon: `contains` in the point-in-polygon sense of the spec is false
for it. -/
theorem c1_counterexample :
    (⟨9, 9, 0⟩ : Point) ∈ (gatherEligiblePoints rsC1 1 [triFeature]).getD [] ∧
      containsSpec [triFeature] 9 9 = false := by
  with_unfolding_all decide

/-- Witness for C1 at the triangle boundary, whose envelope is the
square with corners (0,0) and (10,10). -/
theorem c1_witness :
    getBounds [triFeature] = some ⟨0, 10, 0, 10⟩ ∧
      (∀ p ∈ (gatherEligiblePoints rs0 1 [triFeature]).getD [],
        bbContains ⟨0, 10, 0, 10⟩ p.y p.x = true) :=
  ⟨by with_unfolding_all decide,
    (c1_points_within_envelope rs0 rs0 1 [triFeature] ⟨0, 10, 0, 10⟩ 0
      (by with_unfolding_all decide)).1⟩

/-- C2 (code bug): `handlePlaceChanged` stores the selected location's
latitude (here 39) into `x` and its longitude (here -77) into `y` — the
reverse of the claimed shape `x = longitude, y = latitude` — so the
body later posted by `makePrediction` carries the coordinates swapped. -/
theorem c2_code_swaps_lat_lng :
    (handlePlaceChanged ⟨isoDateFixture, 12, 0, 0⟩ none
        (some ⟨some ⟨39, -77⟩, some [⟨dcShortName, dcLongName⟩]⟩)).1.x = 39 ∧
      (handlePlaceChanged ⟨isoDateFixture, 12, 0, 0⟩ none
        (some ⟨some ⟨39, -77⟩, some [⟨dcShortName, dcLongName⟩]⟩)).1.y = -77 ∧
      ((39 : ℚ) ≠ -77) := by
  with_unfolding_all decide

end MeterMade
